import Mathlib

/-!
Shallow embedding of the `celer` Lasso-path controller:
`celer_path` (src/celer/homotopy.py) and the single-alpha wrapper
`celer` (src/celer/wrapper.py).

Real numbers of the Python code are modelled by `ℚ` (exact arithmetic;
the floating-point rounding of numpy is not modelled).  The inner
solvers `celer_dense` / `celer_sparse` are external Cython routines and
are modelled as an abstract function `Solver` from the argument record
the controller builds to a result record `(w, theta, gaps, times)`.
The base-10 exponential and logarithm used by `np.logspace` /
`np.log10` are transcendental, hence modelled as abstract functions
`exp10`, `log10`; theorems about the automatic grid take the defining
identities they need (`exp10 0 = 1`, `exp10 (log10 eps) = eps`) as
hypotheses.  Wall-clock sampling (`time.time()`) is modelled by an
abstract `clock : ℕ → ℚ` giving the elapsed time of each grid point.
-/

namespace Celer

/-- Number of nonzero entries of a vector:
`len(np.where(w != 0)[0])`, also `(w != 0.).sum()`. -/
def nnz (w : List ℚ) : ℕ :=
  (w.filter (fun x => decide (x ≠ 0))).length

/-- Dot product of two vectors. -/
def dot (a b : List ℚ) : ℚ :=
  (List.zipWith (fun x y => x * y) a b).sum

/-- Model of `np.max(np.abs(l))` (for nonempty `l`; the code never takes it on an
empty vector since `n_features > 0` whenever the path is meaningful). -/
def maxAbs (l : List ℚ) : ℚ :=
  l.foldr (fun a m => max |a| m) 0

/-- Design matrix: column-major (the code requires CSC / Fortran order),
with the number of samples recorded explicitly. -/
structure Mat where
  n_samples : ℕ
  cols : List (List ℚ)

/-- Number of features = number of columns. -/
def Mat.n_features (X : Mat) : ℕ := X.cols.length

/-- The vector `X.T.dot(y)`: one dot product per column. -/
def xty (X : Mat) (y : List ℚ) : List ℚ :=
  X.cols.map (fun c => dot c y)

/-- The threshold `alpha_max = np.max(np.abs(X.T.dot(y))) / n_samples`. -/
def alphaMax (X : Mat) (y : List ℚ) : ℚ :=
  maxAbs (xty X y) / (X.n_samples : ℚ)

/-- Model of `np.linspace(start, stop, n)` with endpoint: sample `k` is
`start + (stop - start) * k / (n - 1)`; for `n = 1` the single sample is
`start` (division by zero yields `0` in `ℚ`, matching numpy's `[start]`). -/
def linspace (start stop : ℚ) (n : ℕ) : List ℚ :=
  (List.range n).map
    (fun k : ℕ => start + (stop - start) * (k : ℚ) / ((n : ℚ) - 1))

/-- Model of `np.logspace(start, stop, n) = 10 ** np.linspace(start, stop, n)`,
with the base-10 exponential abstracted as `exp10`. -/
def logspace (exp10 : ℚ → ℚ) (start stop : ℚ) (n : ℕ) : List ℚ :=
  (linspace start stop n).map exp10

/-- The automatic grid `alpha_max * np.logspace(0, np.log10(eps), n_alphas)`
(`log10eps` stands for `np.log10(eps)`). -/
def autoGrid (exp10 : ℚ → ℚ) (log10eps aMax : ℚ) (n : ℕ) : List ℚ :=
  (logspace exp10 0 log10eps n).map (fun v => aMax * v)

/-- Model of `np.sort(alphas)[::-1]`: sort ascending, then reverse. -/
def sortDesc (l : List ℚ) : List ℚ :=
  (List.insertionSort (fun a b => a ≤ b) l).reverse

/-- The keyword arguments of `celer_path`, with the Python default values. -/
structure PathParams where
  eps : ℚ := 1/1000
  n_alphas : ℕ := 100
  alphas : Option (List ℚ) := none
  coef_init : Option (List ℚ) := none
  max_iter : ℕ := 20
  gap_freq : ℕ := 10
  max_epochs : ℕ := 50000
  p0 : ℕ := 10
  verbose : ℕ := 0
  verbose_inner : ℕ := 0
  tol : ℚ := 1/1000000
  prune : ℕ := 0
  return_thetas : Bool := false
  monitor : Bool := false
  X_offset : Option (List ℚ) := none
  X_scale : List ℚ := []

/-- The argument record the controller hands to the inner solver
(`celer_dense` / `celer_sparse`) at one grid point. -/
structure SolverCall where
  alpha : ℚ
  w_init : List ℚ
  p0 : ℕ
  sparse_scaling : List ℚ
  max_iter : ℕ
  gap_freq : ℕ
  max_epochs : ℕ
  verbose : ℕ
  verbose_inner : ℕ
  use_accel : ℕ
  tol : ℚ
  prune : ℕ
  deriving DecidableEq, Repr

/-- The 4-tuple `(coefficients, dual point, gap trajectory, time trajectory)`
returned by the inner solver. -/
structure SolverResult where
  w : List ℚ
  theta : List ℚ
  gaps : List ℚ
  times : List ℚ
  deriving DecidableEq, Repr

/-- The inner solver, abstract: a (deterministic) function of the call record. -/
def Solver : Type := SolverCall → SolverResult

/-- The vector `X_sparse_scaling`: `X_offset / X_scale` when an offset is supplied,
else `np.zeros(n_features)`. -/
def sparseScaling (X_offset : Option (List ℚ)) (X_scale : List ℚ)
    (n_features : ℕ) : List ℚ :=
  match X_offset with
  | some off => List.zipWith (fun a b => a / b) off X_scale
  | none => List.replicate n_features 0

/-- The warm start at grid point `t = 0`: the caller's `coef_init`
(copied) with `max(nnz, p0)`, or the zero vector with the caller's `p0`. -/
def warmStart0 (p : PathParams) (n_features : ℕ) : List ℚ × ℕ :=
  match p.coef_init with
  | some c => (c, max (nnz c) p.p0)
  | none => (List.replicate n_features 0, p.p0)

/-- The warm start `(w_init, p0)` chosen at grid point `t`:
if `t > 0`, the previous stored column (copied) and `max(nnz, 1)`;
at `t = 0`, `warmStart0`. -/
def initFor (p : PathParams) (n_features : ℕ) (coefs : List (List ℚ))
    (t : ℕ) : List ℚ × ℕ :=
  if 0 < t then
    let w := coefs.getD (t - 1) (List.replicate n_features 0)
    (w, max (nnz w) 1)
  else warmStart0 p n_features

/-- Accumulated controller state after some grid points: the stored
columns, dual points, final gaps, wall-clock times, the monitoring
trajectories, the trace of solver calls, and the indices that triggered
a convergence warning. -/
structure PathState where
  coefs : List (List ℚ)
  thetas : List (List ℚ)
  dual_gaps : List ℚ
  all_times : List ℚ
  gaps_per_alpha : List (List ℚ)
  times_per_alpha : List (List ℚ)
  calls : List SolverCall
  warns : List ℕ
  deriving DecidableEq

/-- The empty initial state. -/
def initState : PathState := ⟨[], [], [], [], [], [], [], []⟩

/-- The argument record built for the inner-solver call at grid point `t`. -/
def mkCall (p : PathParams) (sc : List ℚ) (nf : ℕ) (coefs : List (List ℚ))
    (t : ℕ) (alpha : ℚ) : SolverCall :=
  { alpha := alpha, w_init := (initFor p nf coefs t).1,
    p0 := (initFor p nf coefs t).2, sparse_scaling := sc,
    max_iter := p.max_iter, gap_freq := p.gap_freq,
    max_epochs := p.max_epochs, verbose := p.verbose,
    verbose_inner := p.verbose_inner, use_accel := 1,
    tol := p.tol, prune := p.prune }

/-- One iteration of the `for t in range(n_alphas)` loop of `celer_path`:
build the warm start, call the inner solver, store `sol[0]`, `sol[1]`,
`sol[2][-1]`, append the monitoring trajectories if `monitor`, and warn
when the recorded gap exceeds `tol`. -/
def stepAlpha (solver : Solver) (clock : ℕ → ℚ) (p : PathParams)
    (sc : List ℚ) (nf : ℕ) (t : ℕ) (alpha : ℚ) (st : PathState) : PathState :=
  let call := mkCall p sc nf st.coefs t alpha
  let sol := solver call
  let g := sol.gaps.getLastD 0
  { coefs := st.coefs ++ [sol.w]
    thetas := st.thetas ++ [sol.theta]
    dual_gaps := st.dual_gaps ++ [g]
    all_times := st.all_times ++ [clock t]
    gaps_per_alpha :=
      if p.monitor then st.gaps_per_alpha ++ [sol.gaps] else st.gaps_per_alpha
    times_per_alpha :=
      if p.monitor then st.times_per_alpha ++ [sol.times] else st.times_per_alpha
    calls := st.calls ++ [call]
    warns := if p.tol < g then st.warns ++ [t] else st.warns }

/-- Run the loop over the remaining grid values, `t` being the index of
the next grid point. -/
def runFrom (solver : Solver) (clock : ℕ → ℚ) (p : PathParams)
    (sc : List ℚ) (nf : ℕ) : ℕ → List ℚ → PathState → PathState
  | _, [], st => st
  | t, a :: rest, st =>
      runFrom solver clock p sc nf (t + 1) rest
        (stepAlpha solver clock p sc nf t a st)

/-- The grid actually processed: the supplied `alphas` sorted descending,
or the automatic grid `alpha_max * logspace(0, log10 eps, n_alphas)`. -/
def pathGrid (exp10 log10 : ℚ → ℚ) (X : Mat) (y : List ℚ)
    (p : PathParams) : List ℚ :=
  match p.alphas with
  | some l => sortDesc l
  | none => autoGrid exp10 (log10 p.eps) (alphaMax X y) p.n_alphas

/-- The full loop of `celer_path`, returning the final controller state. -/
def celerPathRun (solver : Solver) (clock : ℕ → ℚ) (exp10 log10 : ℚ → ℚ)
    (X : Mat) (y : List ℚ) (p : PathParams) : PathState :=
  runFrom solver clock p (sparseScaling p.X_offset p.X_scale X.n_features)
    X.n_features 0 (pathGrid exp10 log10 X y p) initState

/-- The value returned by `celer_path`.  The base fields `alphas`,
`coefs`, `dual_gaps` are always present; `thetas` is appended only when
`return_thetas`, and the monitoring trajectories only when additionally
`monitor` (faithful to the nesting of the two `if`s in the source). -/
structure PathOutput where
  alphas : List ℚ
  coefs : List (List ℚ)
  dual_gaps : List ℚ
  thetas : Option (List (List ℚ))
  gaps_per_alpha : Option (List (List ℚ))
  times_per_alpha : Option (List (List ℚ))
  deriving DecidableEq

/-- The function `celer_path` (src/celer/homotopy.py, lines 105-189). -/
def celerPath (solver : Solver) (clock : ℕ → ℚ) (exp10 log10 : ℚ → ℚ)
    (X : Mat) (y : List ℚ) (p : PathParams) : PathOutput :=
  let st := celerPathRun solver clock exp10 log10 X y p
  { alphas := pathGrid exp10 log10 X y p
    coefs := st.coefs
    dual_gaps := st.dual_gaps
    thetas := if p.return_thetas then some st.thetas else none
    gaps_per_alpha :=
      if p.return_thetas && p.monitor then some st.gaps_per_alpha else none
    times_per_alpha :=
      if p.return_thetas && p.monitor then some st.times_per_alpha else none }

/-- The function `celer` (src/celer/wrapper.py): calls `celer_path` on the one-element
grid `[alpha]` with `return_thetas` and `monitor` forced on, and unwraps
the grid-indexed outputs at index 0.  Faithful to the source, the
`max_iter` argument is accepted but NOT forwarded: the `PathParams`
record keeps the `celer_path` default `max_iter = 20`. -/
def celer (solver : Solver) (clock : ℕ → ℚ) (exp10 log10 : ℚ → ℚ)
    (X : Mat) (y : List ℚ) (alpha : ℚ) (w_init : Option (List ℚ))
    (max_iter : ℕ) (gap_freq : ℕ) (max_epochs : ℕ) (p0 : ℕ)
    (verbose : ℕ) (verbose_inner : ℕ) (tol : ℚ) (prune : ℕ) :
    List ℚ × List ℚ × List ℚ × List ℚ :=
  let out := celerPath solver clock exp10 log10 X y
    { alphas := some [alpha], coef_init := w_init, gap_freq := gap_freq,
      max_epochs := max_epochs, p0 := p0, verbose := verbose,
      verbose_inner := verbose_inner, tol := tol, prune := prune,
      return_thetas := true, monitor := true }
  (out.coefs.getD 0 [], (out.thetas.getD []).getD 0 [],
   (out.gaps_per_alpha.getD []).getD 0 [],
   (out.times_per_alpha.getD []).getD 0 [])

/-- Default solver-call record, used only as a `getD` fallback. -/
def dCall : SolverCall := ⟨0, [], 0, [], 0, 0, 0, 0, 0, 0, 0, 0⟩

/-- Equality of controller states up to the wall-clock samples
(`all_times` is the only field computed from `time.time()`). -/
def sameModuloTimes (s₁ s₂ : PathState) : Prop :=
  s₁.coefs = s₂.coefs ∧ s₁.thetas = s₂.thetas ∧
  s₁.dual_gaps = s₂.dual_gaps ∧ s₁.gaps_per_alpha = s₂.gaps_per_alpha ∧
  s₁.times_per_alpha = s₂.times_per_alpha ∧ s₁.calls = s₂.calls ∧
  s₁.warns = s₂.warns

/-- Example inner solver for concrete evaluations: echoes the penalty. -/
def exSolver : Solver := fun c =>
  { w := [c.alpha, 0], theta := [c.alpha, c.alpha], gaps := [c.alpha, 0],
    times := [1, 2] }

/-- Example inner solver whose coefficient output records the `max_iter`
budget it was given. -/
def iterSolver : Solver := fun c =>
  { w := [(c.max_iter : ℚ)], theta := [0], gaps := [0], times := [0] }

/-- Example clock. -/
def exClock : ℕ → ℚ := fun t => (t : ℚ)

/-- A second example clock, used to show clock-independence. -/
def exClock2 : ℕ → ℚ := fun t => (t : ℚ) + 7

/-- Example stand-in for the base-10 exponential, correct at the two
points the automatic-grid theorems evaluate it (`0` and `-1`). -/
def exExp : ℚ → ℚ := fun q => if q = 0 then 1 else if q = -1 then 1/10 else 0

/-- Example stand-in for the base-10 logarithm: `exLog (1/10) = -1`. -/
def exLog : ℚ → ℚ := fun _ => -1

/-- Example design matrix: 2 samples, 2 columns. -/
def exX : Mat := ⟨2, [[1, 0], [0, 1]]⟩

/-- Example target vector. -/
def exY : List ℚ := [2, 4]

/-- Invariant of the loop of `celer_path` after `t` grid points have been
processed: all collections have one entry per processed grid point, every
recorded call carries the sparse-scaling vector and the configured
budgets, the warm start of call `i` is the stored column `i - 1` (or the
`t = 0` warm start), the stored record `i` is exactly what the solver
returned on call `i`, the monitoring lists mirror the solver trajectories,
and the warning list is exactly the list of indices whose recorded gap
exceeds `tol`. -/
structure Inv (solver : Solver) (p : PathParams) (sc : List ℚ) (nf : ℕ)
    (t : ℕ) (st : PathState) : Prop where
  len_coefs : st.coefs.length = t
  len_thetas : st.thetas.length = t
  len_gaps : st.dual_gaps.length = t
  len_times : st.all_times.length = t
  len_calls : st.calls.length = t
  len_gpa : st.gaps_per_alpha.length = (if p.monitor then t else 0)
  len_tpa : st.times_per_alpha.length = (if p.monitor then t else 0)
  call_fixed : ∀ c ∈ st.calls, c.sparse_scaling = sc ∧
      c.max_iter = p.max_iter ∧ c.gap_freq = p.gap_freq ∧
      c.max_epochs = p.max_epochs ∧ c.tol = p.tol ∧ c.prune = p.prune ∧
      c.use_accel = 1
  call_warm : ∀ i, i < t →
      (0 < i →
        (st.calls.getD i dCall).w_init =
          st.coefs.getD (i - 1) (List.replicate nf 0) ∧
        (st.calls.getD i dCall).p0 =
          max (nnz (st.coefs.getD (i - 1) (List.replicate nf 0))) 1) ∧
      (i = 0 →
        (st.calls.getD i dCall).w_init = (warmStart0 p nf).1 ∧
        (st.calls.getD i dCall).p0 = (warmStart0 p nf).2)
  stored : ∀ i, i < t →
      st.coefs.getD i [] = (solver (st.calls.getD i dCall)).w ∧
      st.thetas.getD i [] = (solver (st.calls.getD i dCall)).theta ∧
      st.dual_gaps.getD i 0 = (solver (st.calls.getD i dCall)).gaps.getLastD 0
  mon : p.monitor = true → ∀ i, i < t →
      st.gaps_per_alpha.getD i [] = (solver (st.calls.getD i dCall)).gaps ∧
      st.times_per_alpha.getD i [] = (solver (st.calls.getD i dCall)).times
  warns_eq : st.warns =
      (List.range t).filter (fun i => decide (p.tol < st.dual_gaps.getD i 0))

lemma getD_snoc_lt {α : Type} (l : List α) (x d : α) {n : ℕ}
    (h : n < l.length) : (l ++ [x]).getD n d = l.getD n d :=
  List.getD_append l [x] d n h

lemma getD_snoc_self {α : Type} (l : List α) (x d : α) :
    (l ++ [x]).getD l.length d = x := by
  rw [List.getD_append_right l [x] d l.length le_rfl]
  simp [List.getD]

lemma initFor_zero (p : PathParams) (nf : ℕ) (cs : List (List ℚ)) :
    initFor p nf cs 0 = warmStart0 p nf := rfl

lemma initFor_pos (p : PathParams) (nf : ℕ) (cs : List (List ℚ)) {t : ℕ}
    (h : 0 < t) :
    initFor p nf cs t =
      (cs.getD (t - 1) (List.replicate nf 0),
       max (nnz (cs.getD (t - 1) (List.replicate nf 0))) 1) := by
  simp [initFor, h]

lemma runFrom_nil (solver : Solver) (clock : ℕ → ℚ) (p : PathParams)
    (sc : List ℚ) (nf : ℕ) (t : ℕ) (st : PathState) :
    runFrom solver clock p sc nf t [] st = st := rfl

lemma runFrom_cons (solver : Solver) (clock : ℕ → ℚ) (p : PathParams)
    (sc : List ℚ) (nf : ℕ) (t : ℕ) (a : ℚ) (g : List ℚ) (st : PathState) :
    runFrom solver clock p sc nf t (a :: g) st =
      runFrom solver clock p sc nf (t + 1) g
        (stepAlpha solver clock p sc nf t a st) := rfl

lemma inv_init (solver : Solver) (p : PathParams) (sc : List ℚ) (nf : ℕ) :
    Inv solver p sc nf 0 initState := by
  constructor <;> simp [initState]

section StepLemmas

variable (solver : Solver) (clock : ℕ → ℚ) (p : PathParams) (sc : List ℚ)
variable (nf t : ℕ) (a : ℚ) (st : PathState)

lemma stepAlpha_coefs : (stepAlpha solver clock p sc nf t a st).coefs =
    st.coefs ++ [(solver (mkCall p sc nf st.coefs t a)).w] := rfl

lemma stepAlpha_thetas : (stepAlpha solver clock p sc nf t a st).thetas =
    st.thetas ++ [(solver (mkCall p sc nf st.coefs t a)).theta] := rfl

lemma stepAlpha_gaps : (stepAlpha solver clock p sc nf t a st).dual_gaps =
    st.dual_gaps ++ [(solver (mkCall p sc nf st.coefs t a)).gaps.getLastD 0] :=
  rfl

lemma stepAlpha_times : (stepAlpha solver clock p sc nf t a st).all_times =
    st.all_times ++ [clock t] := rfl

lemma stepAlpha_gpa : (stepAlpha solver clock p sc nf t a st).gaps_per_alpha =
    (if p.monitor then
      st.gaps_per_alpha ++ [(solver (mkCall p sc nf st.coefs t a)).gaps]
     else st.gaps_per_alpha) := rfl

lemma stepAlpha_tpa : (stepAlpha solver clock p sc nf t a st).times_per_alpha =
    (if p.monitor then
      st.times_per_alpha ++ [(solver (mkCall p sc nf st.coefs t a)).times]
     else st.times_per_alpha) := rfl

lemma stepAlpha_calls : (stepAlpha solver clock p sc nf t a st).calls =
    st.calls ++ [mkCall p sc nf st.coefs t a] := rfl

lemma stepAlpha_warns : (stepAlpha solver clock p sc nf t a st).warns =
    (if p.tol < (solver (mkCall p sc nf st.coefs t a)).gaps.getLastD 0 then
      st.warns ++ [t]
     else st.warns) := rfl

end StepLemmas

lemma stepAlpha_inv (solver : Solver) (clock : ℕ → ℚ) (p : PathParams)
    (sc : List ℚ) (nf : ℕ) {t : ℕ} {st : PathState} (a : ℚ)
    (h : Inv solver p sc nf t st) :
    Inv solver p sc nf (t + 1) (stepAlpha solver clock p sc nf t a st) := by
  constructor
  · rw [stepAlpha_coefs]
    simp [h.len_coefs]
  · rw [stepAlpha_thetas]
    simp [h.len_thetas]
  · rw [stepAlpha_gaps]
    simp [h.len_gaps]
  · rw [stepAlpha_times]
    simp [h.len_times]
  · rw [stepAlpha_calls]
    simp [h.len_calls]
  · rw [stepAlpha_gpa]
    have hl := h.len_gpa
    cases hm : p.monitor <;> simp [hm] at hl ⊢ <;> simp [hl]
  · rw [stepAlpha_tpa]
    have hl := h.len_tpa
    cases hm : p.monitor <;> simp [hm] at hl ⊢ <;> simp [hl]
  · rw [stepAlpha_calls]
    intro c hc
    rcases List.mem_append.1 hc with hold | hnew
    · exact h.call_fixed c hold
    · have hce : c = mkCall p sc nf st.coefs t a := List.mem_singleton.1 hnew
      subst hce
      exact ⟨rfl, rfl, rfl, rfl, rfl, rfl, rfl⟩
  · rw [stepAlpha_calls, stepAlpha_coefs]
    intro i hi
    rcases Nat.lt_succ_iff_lt_or_eq.1 hi with hlt | hit
    · have hcalls : (st.calls ++ [mkCall p sc nf st.coefs t a]).getD i dCall =
          st.calls.getD i dCall :=
        getD_snoc_lt st.calls _ dCall (h.len_calls ▸ hlt)
      refine ⟨fun hipos => ?_, fun hi0 => ?_⟩
      · have hco : (st.coefs ++ [(solver (mkCall p sc nf st.coefs t a)).w]).getD
            (i - 1) (List.replicate nf 0) =
            st.coefs.getD (i - 1) (List.replicate nf 0) :=
          getD_snoc_lt st.coefs _ _ (by rw [h.len_coefs]; omega)
        rw [hcalls, hco]
        exact (h.call_warm i hlt).1 hipos
      · rw [hcalls]
        exact (h.call_warm i hlt).2 hi0
    · subst hit
      have hcalls : (st.calls ++ [mkCall p sc nf st.coefs i a]).getD i dCall =
          mkCall p sc nf st.coefs i a := by
        rw [← h.len_calls]
        exact getD_snoc_self st.calls _ dCall
      refine ⟨fun hipos => ?_, fun hi0 => ?_⟩
      · have hco : (st.coefs ++ [(solver (mkCall p sc nf st.coefs i a)).w]).getD
            (i - 1) (List.replicate nf 0) =
            st.coefs.getD (i - 1) (List.replicate nf 0) :=
          getD_snoc_lt st.coefs _ _ (by rw [h.len_coefs]; omega)
        rw [hcalls, hco]
        have hif := initFor_pos p nf st.coefs hipos
        constructor
        · show (initFor p nf st.coefs i).1 = _
          rw [hif]
        · show (initFor p nf st.coefs i).2 = _
          rw [hif]
      · subst hi0
        rw [hcalls]
        constructor
        · show (initFor p nf st.coefs 0).1 = _
          rw [initFor_zero]
        · show (initFor p nf st.coefs 0).2 = _
          rw [initFor_zero]
  · rw [stepAlpha_calls, stepAlpha_coefs, stepAlpha_thetas, stepAlpha_gaps]
    intro i hi
    rcases Nat.lt_succ_iff_lt_or_eq.1 hi with hlt | hit
    · have hcalls : (st.calls ++ [mkCall p sc nf st.coefs t a]).getD i dCall =
          st.calls.getD i dCall :=
        getD_snoc_lt st.calls _ dCall (h.len_calls ▸ hlt)
      have hco : (st.coefs ++ [(solver (mkCall p sc nf st.coefs t a)).w]).getD
          i [] = st.coefs.getD i [] :=
        getD_snoc_lt st.coefs _ _ (h.len_coefs ▸ hlt)
      have hth : (st.thetas ++ [(solver (mkCall p sc nf st.coefs t a)).theta]).getD
          i [] = st.thetas.getD i [] :=
        getD_snoc_lt st.thetas _ _ (h.len_thetas ▸ hlt)
      have hdg : (st.dual_gaps ++
          [(solver (mkCall p sc nf st.coefs t a)).gaps.getLastD 0]).getD i 0 =
          st.dual_gaps.getD i 0 :=
        getD_snoc_lt st.dual_gaps _ _ (h.len_gaps ▸ hlt)
      rw [hcalls, hco, hth, hdg]
      exact h.stored i hlt
    · subst hit
      have hcalls : (st.calls ++ [mkCall p sc nf st.coefs i a]).getD i dCall =
          mkCall p sc nf st.coefs i a := by
        rw [← h.len_calls]
        exact getD_snoc_self st.calls _ dCall
      have hco : (st.coefs ++ [(solver (mkCall p sc nf st.coefs i a)).w]).getD
          i [] = (solver (mkCall p sc nf st.coefs i a)).w := by
        rw [← h.len_coefs]
        exact getD_snoc_self st.coefs _ _
      have hth : (st.thetas ++ [(solver (mkCall p sc nf st.coefs i a)).theta]).getD
          i [] = (solver (mkCall p sc nf st.coefs i a)).theta := by
        rw [← h.len_thetas]
        exact getD_snoc_self st.thetas _ _
      have hdg : (st.dual_gaps ++
          [(solver (mkCall p sc nf st.coefs i a)).gaps.getLastD 0]).getD i 0 =
          (solver (mkCall p sc nf st.coefs i a)).gaps.getLastD 0 := by
        rw [← h.len_gaps]
        exact getD_snoc_self st.dual_gaps _ _
      rw [hcalls, hco, hth, hdg]
      exact ⟨rfl, rfl, rfl⟩
  · rw [stepAlpha_calls, stepAlpha_gpa, stepAlpha_tpa]
    intro hm i hi
    rw [hm]
    simp only [if_true]
    have hlg := h.len_gpa
    have hlt' := h.len_tpa
    rw [hm] at hlg hlt'
    simp only [if_true] at hlg hlt'
    rcases Nat.lt_succ_iff_lt_or_eq.1 hi with hlt | hit
    · have hcalls : (st.calls ++ [mkCall p sc nf st.coefs t a]).getD i dCall =
          st.calls.getD i dCall :=
        getD_snoc_lt st.calls _ dCall (h.len_calls ▸ hlt)
      have hg : (st.gaps_per_alpha ++
          [(solver (mkCall p sc nf st.coefs t a)).gaps]).getD i [] =
          st.gaps_per_alpha.getD i [] :=
        getD_snoc_lt st.gaps_per_alpha _ _ (hlg ▸ hlt)
      have ht' : (st.times_per_alpha ++
          [(solver (mkCall p sc nf st.coefs t a)).times]).getD i [] =
          st.times_per_alpha.getD i [] :=
        getD_snoc_lt st.times_per_alpha _ _ (hlt' ▸ hlt)
      rw [hcalls, hg, ht']
      exact h.mon hm i hlt
    · subst hit
      have hcalls : (st.calls ++ [mkCall p sc nf st.coefs i a]).getD i dCall =
          mkCall p sc nf st.coefs i a := by
        rw [← h.len_calls]
        exact getD_snoc_self st.calls _ dCall
      have hg : (st.gaps_per_alpha ++
          [(solver (mkCall p sc nf st.coefs i a)).gaps]).getD i [] =
          (solver (mkCall p sc nf st.coefs i a)).gaps := by
        rw [← hlg]
        exact getD_snoc_self st.gaps_per_alpha _ _
      have ht' : (st.times_per_alpha ++
          [(solver (mkCall p sc nf st.coefs i a)).times]).getD i [] =
          (solver (mkCall p sc nf st.coefs i a)).times := by
        rw [← hlt']
        exact getD_snoc_self st.times_per_alpha _ _
      rw [hcalls, hg, ht']
      exact ⟨rfl, rfl⟩
  · rw [stepAlpha_warns, stepAlpha_gaps]
    have hr : List.range (t + 1) = List.range t ++ [t] := by
      simp [List.range_succ]
    rw [hr, List.filter_append]
    have hfil : (List.range t).filter (fun i => decide (p.tol <
        (st.dual_gaps ++
          [(solver (mkCall p sc nf st.coefs t a)).gaps.getLastD 0]).getD i 0)) =
        (List.range t).filter (fun i => decide (p.tol < st.dual_gaps.getD i 0)) := by
      apply List.filter_congr
      intro x hx
      have hxt : x < t := List.mem_range.1 hx
      rw [getD_snoc_lt st.dual_gaps _ _ (h.len_gaps ▸ hxt)]
    have hgt : (st.dual_gaps ++
        [(solver (mkCall p sc nf st.coefs t a)).gaps.getLastD 0]).getD t 0 =
        (solver (mkCall p sc nf st.coefs t a)).gaps.getLastD 0 := by
      rw [← h.len_gaps]
      exact getD_snoc_self st.dual_gaps _ _
    rw [hfil, ← h.warns_eq]
    simp only [List.filter_cons, List.filter_nil]
    rw [hgt]
    by_cases hc : p.tol < (solver (mkCall p sc nf st.coefs t a)).gaps.getLastD 0
    · rw [if_pos hc, if_pos (decide_eq_true hc)]
    · rw [if_neg hc, if_neg (by simpa using hc), List.append_nil]

lemma runFrom_inv (solver : Solver) (clock : ℕ → ℚ) (p : PathParams)
    (sc : List ℚ) (nf : ℕ) :
    ∀ (g : List ℚ) (t : ℕ) (st : PathState), Inv solver p sc nf t st →
      Inv solver p sc nf (t + g.length) (runFrom solver clock p sc nf t g st)
  | [], t, st, h => by simpa [runFrom_nil] using h
  | a :: g, t, st, h => by
      rw [runFrom_cons]
      have h1 := stepAlpha_inv solver clock p sc nf a h
      have h2 := runFrom_inv solver clock p sc nf g (t + 1) _ h1
      have he : t + 1 + g.length = t + (a :: g).length := by
        simp [List.length_cons]
        omega
      rw [← he]
      exact h2

/-- The loop invariant holds of the final state of `celer_path`, at
index the length of the processed grid. -/
lemma celerPathRun_inv (solver : Solver) (clock : ℕ → ℚ)
    (exp10 log10 : ℚ → ℚ) (X : Mat) (y : List ℚ) (p : PathParams) :
    Inv solver p (sparseScaling p.X_offset p.X_scale X.n_features)
      X.n_features (pathGrid exp10 log10 X y p).length
      (celerPathRun solver clock exp10 log10 X y p) := by
  have h := runFrom_inv solver clock p
    (sparseScaling p.X_offset p.X_scale X.n_features) X.n_features
    (pathGrid exp10 log10 X y p) 0 initState
    (inv_init solver p _ _)
  simpa [celerPathRun] using h

lemma sortDesc_perm (l : List ℚ) : (sortDesc l).Perm l :=
  (List.reverse_perm _).trans (List.perm_insertionSort _ l)

lemma sortDesc_length (l : List ℚ) : (sortDesc l).length = l.length :=
  (sortDesc_perm l).length_eq

lemma sortDesc_sorted (l : List ℚ) :
    List.Sorted (fun a b => a ≥ b) (sortDesc l) := by
  unfold sortDesc List.Sorted
  rw [List.pairwise_reverse]
  have hs := List.sorted_insertionSort (fun a b => (a : ℚ) ≤ b) l
  exact hs.imp (fun h => h)

lemma sortDesc_congr_perm (l l' : List ℚ) (h : l.Perm l') :
    sortDesc l = sortDesc l' := by
  unfold sortDesc
  have hp : (List.insertionSort (fun a b => (a : ℚ) ≤ b) l).Perm
      (List.insertionSort (fun a b => (a : ℚ) ≤ b) l') :=
    (List.perm_insertionSort _ l).trans
      (h.trans (List.perm_insertionSort _ l').symm)
  rw [List.eq_of_perm_of_sorted hp (List.sorted_insertionSort _ l)
    (List.sorted_insertionSort _ l')]

lemma sortDesc_chain_of_nodup (l : List ℚ) (h : l.Nodup) :
    List.Chain' (fun a b => a > b) (sortDesc l) := by
  have hnd : (sortDesc l).Nodup := ((sortDesc_perm l).nodup_iff).2 h
  have hs := sortDesc_sorted l
  rw [List.chain'_iff_pairwise]
  exact (hs.and hnd).imp (fun hab => lt_of_le_of_ne hab.1 (Ne.symm hab.2))

lemma stepAlpha_clock (solver : Solver) (c₁ c₂ : ℕ → ℚ) (p : PathParams)
    (sc : List ℚ) (nf t : ℕ) (a : ℚ) {s₁ s₂ : PathState}
    (h : sameModuloTimes s₁ s₂) :
    sameModuloTimes (stepAlpha solver c₁ p sc nf t a s₁)
      (stepAlpha solver c₂ p sc nf t a s₂) := by
  obtain ⟨h1, h2, h3, h4, h5, h6, h7⟩ := h
  refine ⟨?_, ?_, ?_, ?_, ?_, ?_, ?_⟩
  · rw [stepAlpha_coefs, stepAlpha_coefs, h1]
  · rw [stepAlpha_thetas, stepAlpha_thetas, h1, h2]
  · rw [stepAlpha_gaps, stepAlpha_gaps, h1, h3]
  · rw [stepAlpha_gpa, stepAlpha_gpa, h1, h4]
  · rw [stepAlpha_tpa, stepAlpha_tpa, h1, h5]
  · rw [stepAlpha_calls, stepAlpha_calls, h1, h6]
  · rw [stepAlpha_warns, stepAlpha_warns, h1, h7]

lemma runFrom_clock (solver : Solver) (c₁ c₂ : ℕ → ℚ) (p : PathParams)
    (sc : List ℚ) (nf : ℕ) :
    ∀ (g : List ℚ) (t : ℕ) (s₁ s₂ : PathState),
      sameModuloTimes s₁ s₂ →
      sameModuloTimes (runFrom solver c₁ p sc nf t g s₁)
        (runFrom solver c₂ p sc nf t g s₂)
  | [], _, _, _, h => h
  | a :: g, t, s₁, s₂, h => by
      rw [runFrom_cons, runFrom_cons]
      exact runFrom_clock solver c₁ c₂ p sc nf g (t + 1) _ _
        (stepAlpha_clock solver c₁ c₂ p sc nf t a h)

/-- The final states of two runs differing only in the wall clock agree
on everything except `all_times`. -/
lemma celerPathRun_clock (solver : Solver) (c₁ c₂ : ℕ → ℚ)
    (exp10 log10 : ℚ → ℚ) (X : Mat) (y : List ℚ) (p : PathParams) :
    sameModuloTimes (celerPathRun solver c₁ exp10 log10 X y p)
      (celerPathRun solver c₂ exp10 log10 X y p) :=
  runFrom_clock solver c₁ c₂ p _ _ _ 0 initState initState
    ⟨rfl, rfl, rfl, rfl, rfl, rfl, rfl⟩

lemma count_filter_range (n i : ℕ) (q : ℕ → Bool) (hi : i < n) :
    ((List.range n).filter q).count i = if q i = true then 1 else 0 := by
  by_cases hq : q i = true
  · rw [if_pos hq, List.count_filter hq]
    exact List.count_eq_one_of_mem (List.nodup_range _) (List.mem_range.2 hi)
  · rw [if_neg hq]
    apply List.count_eq_zero_of_not_mem
    intro hmem
    exact hq (List.of_mem_filter hmem)

lemma autoGrid_eq_map (exp10 : ℚ → ℚ) (L aM : ℚ) (n : ℕ) :
    autoGrid exp10 L aM n = (List.range n).map
      (fun k : ℕ => aM * exp10 (0 + (L - 0) * (k : ℚ) / ((n : ℚ) - 1))) := by
  unfold autoGrid logspace linspace
  rw [List.map_map, List.map_map]
  rfl

lemma getD_range_map (f : ℕ → ℚ) (n k : ℕ) (h : k < n) (d : ℚ) :
    (((List.range n).map f).getD k d) = f k := by
  rw [List.getD_eq_getElem _ _ (by simp [h])]
  simp

lemma autoGrid_length (exp10 : ℚ → ℚ) (L aM : ℚ) (n : ℕ) :
    (autoGrid exp10 L aM n).length = n := by
  rw [autoGrid_eq_map, List.length_map, List.length_range]

lemma autoGrid_getD (exp10 : ℚ → ℚ) (L aM : ℚ) (n k : ℕ) (h : k < n) :
    (autoGrid exp10 L aM n).getD k 0 =
      aM * exp10 (L * (k : ℚ) / ((n : ℚ) - 1)) := by
  rw [autoGrid_eq_map, getD_range_map _ _ _ h]
  have harg : (0 : ℚ) + (L - 0) * (k : ℚ) / ((n : ℚ) - 1) =
      L * (k : ℚ) / ((n : ℚ) - 1) := by ring
  rw [harg]

lemma stepAlpha_nalphas (solver : Solver) (clock : ℕ → ℚ) (p : PathParams)
    (sc : List ℚ) (nf t : ℕ) (a : ℚ) (st : PathState) (m : ℕ) :
    stepAlpha solver clock { p with n_alphas := m } sc nf t a st =
      stepAlpha solver clock p sc nf t a st := rfl

lemma runFrom_nalphas (solver : Solver) (clock : ℕ → ℚ) (p : PathParams)
    (sc : List ℚ) (nf m : ℕ) :
    ∀ (g : List ℚ) (t : ℕ) (st : PathState),
      runFrom solver clock { p with n_alphas := m } sc nf t g st =
        runFrom solver clock p sc nf t g st
  | [], _, _ => rfl
  | a :: g, t, st => by
      rw [runFrom_cons, runFrom_cons, stepAlpha_nalphas]
      exact runFrom_nalphas solver clock p sc nf m g (t + 1) _

/-- C1: for every grid point `t > 0` the initial coefficient vector
passed to the inner solver equals the coefficient vector stored for
point `t - 1` and the working-set hint is `max(nnz of it, 1)`, hence at
least 1; at `t = 0` with a caller-supplied `coef_init`, the initial
vector is that vector and the hint is `max(its nnz, p0)`; at `t = 0`
with no `coef_init`, the initial vector is all zeros and the hint is the
caller's `p0`. -/
theorem C1_warm_start_policy (solver : Solver) (clock : ℕ → ℚ)
    (exp10 log10 : ℚ → ℚ) (X : Mat) (y : List ℚ) (p : PathParams) (t : ℕ)
    (ht : t < (celerPathRun solver clock exp10 log10 X y p).calls.length) :
    let st := celerPathRun solver clock exp10 log10 X y p
    let c := st.calls.getD t dCall
    (0 < t →
      c.w_init = st.coefs.getD (t - 1) (List.replicate X.n_features 0) ∧
      c.p0 =
        max (nnz (st.coefs.getD (t - 1) (List.replicate X.n_features 0))) 1 ∧
      1 ≤ c.p0) ∧
    (t = 0 → p.coef_init = none →
      c.w_init = List.replicate X.n_features 0 ∧ c.p0 = p.p0) ∧
    (t = 0 → ∀ ci, p.coef_init = some ci →
      c.w_init = ci ∧ c.p0 = max (nnz ci) p.p0) := by
  intro st c
  have hinv := celerPathRun_inv solver clock exp10 log10 X y p
  have ht' : t < (pathGrid exp10 log10 X y p).length := by
    rw [← hinv.len_calls]
    exact ht
  have hw := hinv.call_warm t ht'
  refine ⟨?_, ?_, ?_⟩
  · intro htpos
    obtain ⟨h1, h2⟩ := hw.1 htpos
    refine ⟨h1, h2, ?_⟩
    rw [h2]
    exact le_max_right _ _
  · intro ht0 hci
    have hws : warmStart0 p X.n_features =
        (List.replicate X.n_features 0, p.p0) := by
      simp [warmStart0, hci]
    obtain ⟨h1, h2⟩ := hw.2 ht0
    rw [hws] at h1 h2
    exact ⟨h1, h2⟩
  · intro ht0 ci hci
    have hws : warmStart0 p X.n_features = (ci, max (nnz ci) p.p0) := by
      simp [warmStart0, hci]
    obtain ⟨h1, h2⟩ := hw.2 ht0
    rw [hws] at h1 h2
    exact ⟨h1, h2⟩

/-- Witness for C1: two grid points `[3, 1]` with `coef_init = [5, 0]`;
at `t = 1` the warm start is the stored column `[3, 0]` of point 0 and
the hint is `max(1, 1) = 1`; at `t = 0` the warm start is `[5, 0]` with
hint `max(1, 3) = 3`. -/
theorem C1_warm_start_policy_witness :
    1 < (celerPathRun exSolver exClock exExp exLog exX exY
      { alphas := some [1, 3], coef_init := some [5, 0],
        p0 := 3 }).calls.length ∧
    ((celerPathRun exSolver exClock exExp exLog exX exY
      { alphas := some [1, 3], coef_init := some [5, 0],
        p0 := 3 }).calls.getD 1 dCall).w_init = [3, 0] ∧
    ((celerPathRun exSolver exClock exExp exLog exX exY
      { alphas := some [1, 3], coef_init := some [5, 0],
        p0 := 3 }).calls.getD 1 dCall).p0 = 1 ∧
    ((celerPathRun exSolver exClock exExp exLog exX exY
      { alphas := some [1, 3], coef_init := some [5, 0],
        p0 := 3 }).calls.getD 0 dCall).w_init = [5, 0] ∧
    ((celerPathRun exSolver exClock exExp exLog exX exY
      { alphas := some [1, 3], coef_init := some [5, 0],
        p0 := 3 }).calls.getD 0 dCall).p0 = 3 := by
  have h1 := C1_warm_start_policy exSolver exClock exExp exLog exX exY
    { alphas := some [1, 3], coef_init := some [5, 0], p0 := 3 } 1
    (by decide)
  have h0 := C1_warm_start_policy exSolver exClock exExp exLog exX exY
    { alphas := some [1, 3], coef_init := some [5, 0], p0 := 3 } 0
    (by decide)
  obtain ⟨ha, -, -⟩ := h1
  obtain ⟨hw1, hp1, -⟩ := ha (by decide)
  obtain ⟨-, -, hb⟩ := h0
  obtain ⟨hw0, hp0⟩ := hb rfl [5, 0] rfl
  refine ⟨by decide, ?_, ?_, ?_, ?_⟩
  · rw [hw1]
    decide
  · rw [hp1]
    decide
  · rw [hw0]
  · rw [hp0]
    decide

/-- C6: the path never aborts: every returned collection has one entry
per grid value, and the warning list contains a grid index exactly once
when its recorded final gap exceeds `tol` and not at all otherwise. -/
theorem C6_convergence_warnings (solver : Solver) (clock : ℕ → ℚ)
    (exp10 log10 : ℚ → ℚ) (X : Mat) (y : List ℚ) (p : PathParams) :
    let out := celerPath solver clock exp10 log10 X y p
    let st := celerPathRun solver clock exp10 log10 X y p
    out.coefs.length = out.alphas.length ∧
    out.dual_gaps.length = out.alphas.length ∧
    st.thetas.length = out.alphas.length ∧
    st.warns = (List.range out.alphas.length).filter
      (fun i => decide (p.tol < out.dual_gaps.getD i 0)) ∧
    (∀ i, i < out.alphas.length →
      st.warns.count i =
        if p.tol < out.dual_gaps.getD i 0 then 1 else 0) := by
  intro out st
  have hinv := celerPathRun_inv solver clock exp10 log10 X y p
  refine ⟨hinv.len_coefs, hinv.len_gaps, hinv.len_thetas, hinv.warns_eq, ?_⟩
  intro i hi
  rw [hinv.warns_eq,
    count_filter_range ((pathGrid exp10 log10 X y p).length) i _ hi]
  simp only [decide_eq_true_eq]
  rfl

/-- Witness for C6: two grid points, solver gaps ending in 0, `tol = -1`:
both grid points warn, each exactly once. -/
theorem C6_convergence_warnings_witness :
    (celerPathRun exSolver exClock exExp exLog exX exY
      { alphas := some [4, 6], tol := -1 }).warns = [0, 1] ∧
    (celerPathRun exSolver exClock exExp exLog exX exY
      { alphas := some [4, 6], tol := -1 }).warns.count 0 = 1 := by
  obtain ⟨-, -, -, hw, hcnt⟩ := C6_convergence_warnings exSolver exClock
    exExp exLog exX exY { alphas := some [4, 6], tol := -1 }
  constructor
  · rw [hw]
    decide
  · rw [hcnt 0 (by decide)]
    decide

/-- C7: for every grid point the stored coefficient vector and dual
point are exactly the first two components of the inner solver's
returned tuple, and the recorded gap is the final entry of the returned
gap trajectory. -/
theorem C7_record_from_solver (solver : Solver) (clock : ℕ → ℚ)
    (exp10 log10 : ℚ → ℚ) (X : Mat) (y : List ℚ) (p : PathParams) (t : ℕ)
    (ht : t < (celerPathRun solver clock exp10 log10 X y p).calls.length) :
    let out := celerPath solver clock exp10 log10 X y p
    let st := celerPathRun solver clock exp10 log10 X y p
    let c := st.calls.getD t dCall
    out.coefs.getD t [] = (solver c).w ∧
    st.thetas.getD t [] = (solver c).theta ∧
    out.dual_gaps.getD t 0 = (solver c).gaps.getLastD 0 ∧
    (∀ hne : (solver c).gaps ≠ [],
      out.dual_gaps.getD t 0 = (solver c).gaps.getLast hne) := by
  intro out st c
  have hinv := celerPathRun_inv solver clock exp10 log10 X y p
  have ht' : t < (pathGrid exp10 log10 X y p).length := by
    rw [← hinv.len_calls]
    exact ht
  obtain ⟨h1, h2, h3⟩ := hinv.stored t ht'
  refine ⟨h1, h2, h3, ?_⟩
  intro hne
  have h5 : (solver c).gaps.getLastD 0 = (solver c).gaps.getLast hne := by
    simp [List.getLastD_eq_getLast?, List.getLast?_eq_getLast _ hne]
  rw [← h5]
  exact h3

/-- Witness for C7: one grid point at `α = 2`; the solver returns
`w = [2, 0]`, `theta = [2, 2]`, gaps `[2, 0]`, and the record stores
`[2, 0]`, `[2, 2]` and final gap `0`. -/
theorem C7_record_from_solver_witness :
    0 < (celerPathRun exSolver exClock exExp exLog exX exY
      { alphas := some [2] }).calls.length ∧
    (celerPath exSolver exClock exExp exLog exX exY
      { alphas := some [2] }).coefs.getD 0 [] = [2, 0] ∧
    (celerPathRun exSolver exClock exExp exLog exX exY
      { alphas := some [2] }).thetas.getD 0 [] = [2, 2] ∧
    (celerPath exSolver exClock exExp exLog exX exY
      { alphas := some [2] }).dual_gaps.getD 0 0 = 0 := by
  obtain ⟨h1, h2, -, h4⟩ := C7_record_from_solver exSolver exClock exExp
    exLog exX exY { alphas := some [2] } 0 (by decide)
  refine ⟨by decide, ?_, ?_, ?_⟩
  · rw [h1]
    decide
  · rw [h2]
    decide
  · rw [h4 (by decide)]
    decide

/-- C8: every inner-solver call of a path receives the same
sparse-scaling vector, equal to the elementwise quotient
`X_offset / X_scale` when an offset is supplied and to the all-zero
vector of length `n_features` otherwise; and there is one call per grid
point. -/
theorem C8_sparse_scaling_vector (solver : Solver) (clock : ℕ → ℚ)
    (exp10 log10 : ℚ → ℚ) (X : Mat) (y : List ℚ) (p : PathParams) :
    let st := celerPathRun solver clock exp10 log10 X y p
    st.calls.length = (pathGrid exp10 log10 X y p).length ∧
    (∀ c ∈ st.calls,
      c.sparse_scaling = sparseScaling p.X_offset p.X_scale X.n_features) ∧
    (∀ off, p.X_offset = some off →
      sparseScaling p.X_offset p.X_scale X.n_features =
        List.zipWith (fun a b => a / b) off p.X_scale) ∧
    (p.X_offset = none →
      sparseScaling p.X_offset p.X_scale X.n_features =
        List.replicate X.n_features 0) := by
  intro st
  have hinv := celerPathRun_inv solver clock exp10 log10 X y p
  refine ⟨hinv.len_calls, ?_, ?_, ?_⟩
  · intro c hc
    exact (hinv.call_fixed c hc).1
  · intro off hoff
    simp [sparseScaling, hoff]
  · intro hoff
    simp [sparseScaling, hoff]

/-- Witness for C8: one grid point with `X_offset = [1, 4]`,
`X_scale = [2, 2]`; the call receives `[1/2, 2]`. -/
theorem C8_sparse_scaling_vector_witness :
    ((celerPathRun exSolver exClock exExp exLog exX exY
      { alphas := some [1], X_offset := some [1, 4],
        X_scale := [2, 2] }).calls.getD 0 dCall).sparse_scaling =
      [1/2, 2] := by
  obtain ⟨hlen, hall, hoff, -⟩ := C8_sparse_scaling_vector exSolver exClock
    exExp exLog exX exY
    { alphas := some [1], X_offset := some [1, 4], X_scale := [2, 2] }
  have hmem : (celerPathRun exSolver exClock exExp exLog exX exY
      { alphas := some [1], X_offset := some [1, 4],
        X_scale := [2, 2] }).calls.getD 0 dCall ∈
      (celerPathRun exSolver exClock exExp exLog exX exY
      { alphas := some [1], X_offset := some [1, 4],
        X_scale := [2, 2] }).calls := by
    rw [List.getD_eq_getElem _ _ (by rw [hlen]; decide)]
    exact List.getElem_mem _
  rw [hall _ hmem, hoff [1, 4] rfl]
  show List.zipWith (fun a b => a / b) [1, 4] [2, 2] = [1/2, 2]
  norm_num

/-- C3 (amended): the base triple `alphas`, `coefs`, `dual_gaps` is
always returned; the dual-point collection is appended iff
`return_thetas`; the gap and timing trajectories are appended iff BOTH
`return_thetas` and `monitor` are requested — with `return_thetas` off,
`monitor` has no effect on the result. -/
theorem C3_output_assembly (solver : Solver) (clock : ℕ → ℚ)
    (exp10 log10 : ℚ → ℚ) (X : Mat) (y : List ℚ) (p : PathParams) :
    (celerPath solver clock exp10 log10 X y p).alphas =
      pathGrid exp10 log10 X y p ∧
    (celerPath solver clock exp10 log10 X y p).coefs =
      (celerPathRun solver clock exp10 log10 X y p).coefs ∧
    (celerPath solver clock exp10 log10 X y p).dual_gaps =
      (celerPathRun solver clock exp10 log10 X y p).dual_gaps ∧
    (celerPath solver clock exp10 log10 X y p).thetas.isSome =
      p.return_thetas ∧
    (celerPath solver clock exp10 log10 X y p).gaps_per_alpha.isSome =
      (p.return_thetas && p.monitor) ∧
    (celerPath solver clock exp10 log10 X y p).times_per_alpha.isSome =
      (p.return_thetas && p.monitor) ∧
    (p.return_thetas = true →
      (celerPath solver clock exp10 log10 X y p).thetas =
        some (celerPathRun solver clock exp10 log10 X y p).thetas) ∧
    (p.return_thetas = true → p.monitor = true →
      (celerPath solver clock exp10 log10 X y p).gaps_per_alpha =
        some (celerPathRun solver clock exp10 log10 X y p).gaps_per_alpha ∧
      (celerPath solver clock exp10 log10 X y p).times_per_alpha =
        some (celerPathRun solver clock exp10 log10 X y p).times_per_alpha) := by
  cases hb : p.return_thetas <;> cases hm : p.monitor <;>
    simp [celerPath, hb, hm]

/-- C3 counterexample: with `monitor` requested but `return_thetas` off,
the trajectories are NOT appended to the result, refuting "appended iff
monitoring is requested". -/
theorem C3_monitor_without_thetas :
    ({ alphas := some [1], monitor := true,
        return_thetas := false } : PathParams).monitor = true ∧
    (celerPath exSolver exClock exExp exLog exX exY
      { alphas := some [1], monitor := true,
        return_thetas := false }).gaps_per_alpha = none ∧
    (celerPath exSolver exClock exExp exLog exX exY
      { alphas := some [1], monitor := true,
        return_thetas := false }).times_per_alpha = none :=
  ⟨rfl, rfl, rfl⟩

/-- Witness for C3: with both `return_thetas` and `monitor` on, the
conditional collections are present. -/
theorem C3_output_assembly_witness :
    (celerPath exSolver exClock exExp exLog exX exY
      { alphas := some [1], return_thetas := true,
        monitor := true }).thetas =
      some (celerPathRun exSolver exClock exExp exLog exX exY
        { alphas := some [1], return_thetas := true,
          monitor := true }).thetas ∧
    (celerPath exSolver exClock exExp exLog exX exY
      { alphas := some [1], return_thetas := true,
        monitor := true }).gaps_per_alpha =
      some (celerPathRun exSolver exClock exExp exLog exX exY
        { alphas := some [1], return_thetas := true,
          monitor := true }).gaps_per_alpha := by
  obtain ⟨-, -, -, -, -, -, h7, h8⟩ := C3_output_assembly exSolver exClock
    exExp exLog exX exY
    { alphas := some [1], return_thetas := true, monitor := true }
  exact ⟨h7 rfl, (h8 rfl rfl).1⟩

/-- C5 (amended): a supplied grid is returned sorted in descending
(non-increasing) order: the result is the descending sort of the input,
is independent of the order the caller used, and is strictly descending
whenever the supplied values are distinct. -/
theorem C5_descending_sort (solver : Solver) (clock : ℕ → ℚ)
    (exp10 log10 : ℚ → ℚ) (X : Mat) (y : List ℚ) (p : PathParams)
    (la la2 : List ℚ) (hl : p.alphas = some la) (hperm : la2.Perm la) :
    (celerPath solver clock exp10 log10 X y p).alphas = sortDesc la ∧
    (celerPath solver clock exp10 log10 X y p).alphas = sortDesc la2 ∧
    List.Sorted (fun a b => a ≥ b)
      (celerPath solver clock exp10 log10 X y p).alphas ∧
    ((celerPath solver clock exp10 log10 X y p).alphas).Perm la ∧
    (la.Nodup → List.Chain' (fun a b => a > b)
      (celerPath solver clock exp10 log10 X y p).alphas) := by
  have hg : (celerPath solver clock exp10 log10 X y p).alphas =
      sortDesc la := by
    show pathGrid exp10 log10 X y p = sortDesc la
    simp [pathGrid, hl]
  refine ⟨hg, ?_, ?_, ?_, ?_⟩
  · rw [hg, sortDesc_congr_perm la la2 hperm.symm]
  · rw [hg]
    exact sortDesc_sorted la
  · rw [hg]
    exact sortDesc_perm la
  · intro hnd
    rw [hg]
    exact sortDesc_chain_of_nodup la hnd

/-- C5 counterexample: with duplicate supplied values `[2, 2]` the
returned grid is `[2, 2]`, which is not strictly descending — the claim
"sorted strictly descending" fails on inputs with repeated values. -/
theorem C5_duplicates_not_strict :
    (celerPath exSolver exClock exExp exLog exX exY
      { alphas := some [2, 2] }).alphas = [2, 2] ∧
    ¬ List.Chain' (fun a b => a > b)
      (celerPath exSolver exClock exExp exLog exX exY
        { alphas := some [2, 2] }).alphas := by
  have h : (celerPath exSolver exClock exExp exLog exX exY
      { alphas := some [2, 2] }).alphas = [2, 2] := by decide
  refine ⟨h, ?_⟩
  rw [h, List.chain'_cons]
  rintro ⟨hgt, -⟩
  exact lt_irrefl _ hgt

/-- Witness for C5: the unsorted input `[2, 1, 3]` (a permutation of
`[3, 2, 1]`) yields the strictly descending grid `[3, 2, 1]`. -/
theorem C5_descending_sort_witness :
    (celerPath exSolver exClock exExp exLog exX exY
      { alphas := some [2, 1, 3] }).alphas = [3, 2, 1] ∧
    List.Chain' (fun a b => a > b)
      (celerPath exSolver exClock exExp exLog exX exY
        { alphas := some [2, 1, 3] }).alphas := by
  obtain ⟨h1, -, -, -, h5⟩ := C5_descending_sort exSolver exClock exExp
    exLog exX exY { alphas := some [2, 1, 3] } [2, 1, 3] [3, 2, 1] rfl
    (by decide)
  constructor
  · rw [h1]
    decide
  · exact h5 (by decide)

/-- C9: the returned output is a deterministic function of the inputs
and the inner solver: the wall clock (`time.time()`, the only impure
ingredient of the loop) never reaches the returned object, so any two
runs with identical parameters — even under different clocks — return
identical outputs. -/
theorem C9_deterministic_output (solver : Solver) (c₁ c₂ : ℕ → ℚ)
    (exp10 log10 : ℚ → ℚ) (X : Mat) (y : List ℚ) (p : PathParams) :
    celerPath solver c₁ exp10 log10 X y p =
      celerPath solver c₂ exp10 log10 X y p := by
  obtain ⟨h1, h2, h3, h4, h5, h6, h7⟩ :=
    celerPathRun_clock solver c₁ c₂ exp10 log10 X y p
  simp only [celerPath]
  rw [h1, h2, h3, h4, h5]

/-- C10: when an explicit grid is supplied, `n_alphas` is ignored — the
output is unchanged under any `n_alphas`, and every returned collection
has the length of the supplied grid. -/
theorem C10_nalphas_ignored (solver : Solver) (clock : ℕ → ℚ)
    (exp10 log10 : ℚ → ℚ) (X : Mat) (y : List ℚ) (p : PathParams)
    (la : List ℚ) (m : ℕ) (hl : p.alphas = some la) :
    celerPath solver clock exp10 log10 X y { p with n_alphas := m } =
      celerPath solver clock exp10 log10 X y p ∧
    (celerPath solver clock exp10 log10 X y p).alphas.length = la.length ∧
    (celerPath solver clock exp10 log10 X y p).coefs.length = la.length ∧
    (celerPath solver clock exp10 log10 X y p).dual_gaps.length =
      la.length ∧
    (∀ th, (celerPath solver clock exp10 log10 X y p).thetas = some th →
      th.length = la.length) ∧
    (∀ gm, (celerPath solver clock exp10 log10 X y p).gaps_per_alpha =
      some gm → gm.length = la.length) ∧
    (∀ tm, (celerPath solver clock exp10 log10 X y p).times_per_alpha =
      some tm → tm.length = la.length) := by
  have hgrid : pathGrid exp10 log10 X y { p with n_alphas := m } =
      pathGrid exp10 log10 X y p := by
    simp [pathGrid, hl]
  have hlen : (pathGrid exp10 log10 X y p).length = la.length := by
    simp [pathGrid, hl, sortDesc_length]
  have hinv := celerPathRun_inv solver clock exp10 log10 X y p
  refine ⟨?_, ?_, ?_, ?_, ?_, ?_, ?_⟩
  · simp only [celerPath, celerPathRun]
    rw [hgrid, runFrom_nalphas]
  · show (pathGrid exp10 log10 X y p).length = la.length
    exact hlen
  · show (celerPathRun solver clock exp10 log10 X y p).coefs.length =
      la.length
    rw [hinv.len_coefs]
    exact hlen
  · show (celerPathRun solver clock exp10 log10 X y p).dual_gaps.length =
      la.length
    rw [hinv.len_gaps]
    exact hlen
  · intro th hth
    cases hb : p.return_thetas
    · rw [show (celerPath solver clock exp10 log10 X y p).thetas = none by
        simp [celerPath, hb]] at hth
      cases hth
    · have he : (celerPath solver clock exp10 log10 X y p).thetas =
          some (celerPathRun solver clock exp10 log10 X y p).thetas := by
        simp [celerPath, hb]
      rw [he] at hth
      rw [← Option.some.inj hth, hinv.len_thetas]
      exact hlen
  · intro gm hgm
    cases hb : (p.return_thetas && p.monitor)
    · rw [show (celerPath solver clock exp10 log10 X y p).gaps_per_alpha =
          none by simp [celerPath, hb]] at hgm
      cases hgm
    · have hb' := hb
      rw [Bool.and_eq_true] at hb'
      have hmon : p.monitor = true := hb'.2
      have he : (celerPath solver clock exp10 log10 X y p).gaps_per_alpha =
          some (celerPathRun solver clock exp10 log10 X y
            p).gaps_per_alpha := by
        simp [celerPath, hb]
      rw [he] at hgm
      rw [← Option.some.inj hgm]
      have hg2 := hinv.len_gpa
      rw [hmon, if_pos rfl] at hg2
      rw [hg2]
      exact hlen
  · intro tm htm
    cases hb : (p.return_thetas && p.monitor)
    · rw [show (celerPath solver clock exp10 log10 X y p).times_per_alpha =
          none by simp [celerPath, hb]] at htm
      cases htm
    · have hb' := hb
      rw [Bool.and_eq_true] at hb'
      have hmon : p.monitor = true := hb'.2
      have he : (celerPath solver clock exp10 log10 X y p).times_per_alpha =
          some (celerPathRun solver clock exp10 log10 X y
            p).times_per_alpha := by
        simp [celerPath, hb]
      rw [he] at htm
      rw [← Option.some.inj htm]
      have hg2 := hinv.len_tpa
      rw [hmon, if_pos rfl] at hg2
      rw [hg2]
      exact hlen

/-- Witness for C10: on the supplied grid `[2, 1]`, changing `n_alphas`
to 5 leaves the output unchanged, and the coefficient collection has 2
entries. -/
theorem C10_nalphas_ignored_witness :
    celerPath exSolver exClock exExp exLog exX exY
      { alphas := some [2, 1], n_alphas := 5 } =
      celerPath exSolver exClock exExp exLog exX exY
        { alphas := some [2, 1] } ∧
    (celerPath exSolver exClock exExp exLog exX exY
      { alphas := some [2, 1] }).coefs.length = 2 := by
  obtain ⟨h1, -, h3, -⟩ := C10_nalphas_ignored exSolver exClock exExp exLog
    exX exY { alphas := some [2, 1] } [2, 1] 5 rfl
  constructor
  · exact h1
  · rw [h3]
    rfl

/-- C2 (code bug): `celer` accepts a `max_iter` argument (documented as
the outer-iteration budget, default 100) but never forwards it to
`celer_path`, which therefore runs with its own default `max_iter = 20`.
With an inner solver sensitive to `max_iter`, the output of
`celer(..., max_iter = 100)` differs from the index-0 slice of the
`celer_path` call with identical parameters. -/
theorem C2_max_iter_not_forwarded :
    (celer iterSolver exClock exExp exLog exX exY 1 none 100 10 50000 10 1 0
      (1/1000000) 0).1 = [(20 : ℚ)] ∧
    (celerPath iterSolver exClock exExp exLog exX exY
      { alphas := some [1], coef_init := none, max_iter := 100,
        gap_freq := 10, max_epochs := 50000, p0 := 10, verbose := 1,
        verbose_inner := 0, tol := 1/1000000, prune := 0,
        return_thetas := true, monitor := true }).coefs.getD 0 [] =
      [(100 : ℚ)] ∧
    (celer iterSolver exClock exExp exLog exX exY 1 none 100 10 50000 10 1 0
      (1/1000000) 0).1 ≠
      (celerPath iterSolver exClock exExp exLog exX exY
        { alphas := some [1], coef_init := none, max_iter := 100,
          gap_freq := 10, max_epochs := 50000, p0 := 10, verbose := 1,
          verbose_inner := 0, tol := 1/1000000, prune := 0,
          return_thetas := true, monitor := true }).coefs.getD 0 [] := by
  refine ⟨by decide, by decide, by decide⟩

/-- C4: with no supplied grid, the processed and returned grid is
`alpha_max * logspace(0, log10 eps, n_alphas)` with
`alpha_max = max |Xᵀy| / n_samples`: it has `n_alphas` entries, entry
`k` equals `alpha_max * exp10 (log10 eps * k / (n_alphas - 1))`, the
first entry equals `alpha_max` and the last equals `eps * alpha_max`
(the hypotheses state the two defining identities of the base-10
exponential that the claim needs). -/
theorem C4_automatic_grid (solver : Solver) (clock : ℕ → ℚ)
    (exp10 log10 : ℚ → ℚ) (X : Mat) (y : List ℚ) (p : PathParams)
    (h0 : exp10 0 = 1) (he : exp10 (log10 p.eps) = p.eps)
    (hnone : p.alphas = none) :
    (celerPath solver clock exp10 log10 X y p).alphas =
      autoGrid exp10 (log10 p.eps) (alphaMax X y) p.n_alphas ∧
    (celerPath solver clock exp10 log10 X y p).alphas.length =
      p.n_alphas ∧
    (∀ k, k < p.n_alphas →
      (celerPath solver clock exp10 log10 X y p).alphas.getD k 0 =
        alphaMax X y *
          exp10 (log10 p.eps * (k : ℚ) / ((p.n_alphas : ℚ) - 1))) ∧
    (0 < p.n_alphas →
      (celerPath solver clock exp10 log10 X y p).alphas.getD 0 0 =
        maxAbs (xty X y) / (X.n_samples : ℚ)) ∧
    (2 ≤ p.n_alphas →
      (celerPath solver clock exp10 log10 X y p).alphas.getD
          (p.n_alphas - 1) 0 =
        p.eps * (maxAbs (xty X y) / (X.n_samples : ℚ))) := by
  have hg : (celerPath solver clock exp10 log10 X y p).alphas =
      autoGrid exp10 (log10 p.eps) (alphaMax X y) p.n_alphas := by
    show pathGrid exp10 log10 X y p = _
    simp [pathGrid, hnone]
  refine ⟨hg, ?_, ?_, ?_, ?_⟩
  · rw [hg, autoGrid_length]
  · intro k hk
    rw [hg, autoGrid_getD _ _ _ _ _ hk]
  · intro hn
    rw [hg, autoGrid_getD _ _ _ _ _ hn]
    have hz : log10 p.eps * ((0 : ℕ) : ℚ) / ((p.n_alphas : ℚ) - 1) = 0 := by
      norm_num
    rw [hz, h0, mul_one]
    rfl
  · intro hn2
    have hlt : p.n_alphas - 1 < p.n_alphas := by omega
    rw [hg, autoGrid_getD _ _ _ _ _ hlt]
    have h1n : (1 : ℕ) ≤ p.n_alphas := by omega
    have hc : ((p.n_alphas - 1 : ℕ) : ℚ) = (p.n_alphas : ℚ) - 1 := by
      rw [Nat.cast_sub h1n, Nat.cast_one]
    rw [hc]
    have hne : ((p.n_alphas : ℚ) - 1) ≠ 0 := by
      have h2 : (2 : ℚ) ≤ (p.n_alphas : ℚ) := by exact_mod_cast hn2
      intro hzz
      nlinarith
    rw [mul_div_assoc, div_self hne, mul_one, he, mul_comm]
    rfl

/-- Witness for C4: `eps = 1/10`, 3 grid points, `X` the 2×2 identity
columns with `y = [2, 4]`, so `alpha_max = 4/2 = 2`; the grid has 3
entries and starts at 2. -/
theorem C4_automatic_grid_witness :
    exExp 0 = 1 ∧
    exExp (exLog (1/10)) = 1/10 ∧
    (celerPath exSolver exClock exExp exLog exX exY
      { alphas := none, eps := 1/10, n_alphas := 3 }).alphas.length = 3 ∧
    (celerPath exSolver exClock exExp exLog exX exY
      { alphas := none, eps := 1/10, n_alphas := 3 }).alphas.getD 0 0 =
      2 := by
  obtain ⟨-, hlen, -, hhead, -⟩ := C4_automatic_grid exSolver exClock exExp
    exLog exX exY { alphas := none, eps := 1/10, n_alphas := 3 } rfl rfl rfl
  refine ⟨rfl, rfl, hlen, ?_⟩
  rw [hhead (by decide)]
  show maxAbs (xty exX exY) / ((exX.n_samples : ℕ) : ℚ) = 2
  norm_num [maxAbs, xty, dot, exX, exY]

end Celer
